import Mathlib

/-!
Verification of the SpiritMirror quiz scoring engine.

This development shallowly embeds the scoring and result-derivation engine
of the spirit-animal quiz (the `SpiritAnimalCalculator` class and the
`calculateQuizResult` utility): response validation, per-archetype point
aggregation with a completion damping factor, ranking, secondary-result
selection, confidence classification, and result assembly.

JavaScript numbers are modelled as exact rationals (`ℚ`); floating point
rounding of IEEE doubles is out of scope.  `Math.round` is modelled as
`fun q => ⌊q + 1/2⌋` (round half toward positive infinity), which is its
exact behaviour on finite doubles.  `Array.prototype.sort` with the
comparator `(a, b) => b.totalPoints - a.totalPoints` is a stable sort by
descending `totalPoints`; a stable sort by a total preorder has a unique
result, modelled here by a stable insertion sort.
-/

attribute [local semireducible] Rat.mul Rat.add Rat.inv Rat.sub Rat.ofScientific

/-- A JavaScript runtime value, as far as the response validator can
distinguish them: strings, numbers, booleans, objects (own enumerable
string-keyed entries in insertion order, covering plain objects and
arrays alike), `null` and `undefined`.  A missing property reads as
`vundef`. -/
inductive JVal where
  | vstr : String → JVal
  | vnum : ℚ → JVal
  | vbool : Bool → JVal
  | vobj : List (String × JVal) → JVal
  | vnull : JVal
  | vundef : JVal

/-- JavaScript truthiness of a value. -/
def jsTruthy : JVal → Bool
  | .vstr s => s != ""
  | .vnum q => q != 0
  | .vbool b => b
  | .vobj _ => true
  | .vnull => false
  | .vundef => false

/-- The JavaScript `typeof` operator (note `typeof null === "object"`). -/
def jsTypeof : JVal → String
  | .vstr _ => "string"
  | .vnum _ => "number"
  | .vbool _ => "boolean"
  | .vobj _ => "object"
  | .vnull => "object"
  | .vundef => "undefined"

/-- Behaviour of `Array.prototype.includes` of a list of strings applied to a value:
a non-string never equals any string under SameValueZero. -/
def jsIncludes (opts : List String) : JVal → Bool
  | .vstr s => opts.contains s
  | _ => false

/-- Entries of `Object.entries` of a value already known to be an object. -/
def jsEntries : JVal → List (String × JVal)
  | .vobj es => es
  | _ => []

/-- One element of the raw response array as the validator sees it: the
three properties the engine reads.  A missing property is `JVal.vundef`. -/
structure RawResponse where
  questionId : JVal
  selectedOption : JVal
  points : JVal

/-- The raw argument of `validateResponses`: either not an array at all,
or an array of response objects. -/
inductive RawInput where
  | notAnArray : RawInput
  | arr : List RawResponse → RawInput

/-- Errors of the engine.  The source throws plain `Error` objects; the
spec names the validator's throws `ValidationError` (their messages are
kept) and the ranker's empty-input throw `NoScoresError`. -/
inductive CalcError where
  | validationError : String → CalcError
  | noScores : CalcError
  deriving DecidableEq, Repr

instance {ε α : Type} [DecidableEq ε] [DecidableEq α] : DecidableEq (Except ε α) := fun x y =>
  match x, y with
  | Except.ok a, Except.ok b =>
    if h : a = b then Decidable.isTrue (by rw [h]) else Decidable.isFalse (by simp [h])
  | Except.ok _, Except.error _ => Decidable.isFalse (by simp)
  | Except.error _, Except.ok _ => Decidable.isFalse (by simp)
  | Except.error e, Except.error f =>
    if h : e = f then Decidable.isTrue (by rw [h]) else Decidable.isFalse (by simp [h])

/-- The list `const validOptions = ['A', 'B', 'C', 'D', 'E', 'F', 'unknown', 'skip']`
from `validateResponses`. -/
def validOptions : List String := ["A", "B", "C", "D", "E", "F", "unknown", "skip"]

/-- The per-entry loop of `validateResponses` over `Object.entries(response.points)`:
`if (typeof points !== 'number' || points < 0) throw ...`, first failure wins. -/
def validatePointsEntries (i : ℕ) : List (String × JVal) → Except CalcError Unit
  | [] => Except.ok ()
  | (animal, v) :: rest =>
    match v with
    | .vnum q =>
      if q < 0 then
        Except.error (CalcError.validationError
          ("Response " ++ toString i ++ ": points for animal \x27" ++ animal ++
            "\x27 must be a non-negative number"))
      else validatePointsEntries i rest
    | _ =>
      Except.error (CalcError.validationError
        ("Response " ++ toString i ++ ": points for animal \x27" ++ animal ++
          "\x27 must be a non-negative number"))

/-- The body of `responses.forEach((response, index) => ...)` in
`validateResponses`: the four field checks and the points loop, first
failing check throws. -/
def validateEntry (i : ℕ) (r : RawResponse) : Except CalcError Unit :=
  if !jsTruthy r.questionId || jsTypeof r.questionId != "string" then
    Except.error (CalcError.validationError
      ("Response " ++ toString i ++ ": questionId is required and must be a string"))
  else if !jsTruthy r.selectedOption || jsTypeof r.selectedOption != "string" then
    Except.error (CalcError.validationError
      ("Response " ++ toString i ++ ": selectedOption is required and must be a string"))
  else if !(jsIncludes validOptions r.selectedOption) then
    Except.error (CalcError.validationError
      ("Response " ++ toString i ++ ": selectedOption must be one of: " ++
        String.intercalate ", " validOptions))
  else if !jsTruthy r.points || jsTypeof r.points != "object" then
    Except.error (CalcError.validationError
      ("Response " ++ toString i ++ ": points is required and must be an object"))
  else validatePointsEntries i (jsEntries r.points)

/-- The indexed traversal of the response array in `validateResponses`. -/
def validateEntries (i : ℕ) : List RawResponse → Except CalcError Unit
  | [] => Except.ok ()
  | r :: rest =>
    match validateEntry i r with
    | Except.ok _ => validateEntries (i + 1) rest
    | Except.error e => Except.error e

/-- The method `SpiritAnimalCalculator.validateResponses`: rejects non-arrays, the
empty array, and any malformed entry, with the source's error messages. -/
def validateResponses : RawInput → Except CalcError Unit
  | .notAnArray => Except.error (CalcError.validationError "Responses must be an array")
  | .arr rs =>
    if rs.length = 0 then
      Except.error (CalcError.validationError "At least one response is required")
    else validateEntries 0 rs

/-- A well-typed quiz response, matching the `QuestionResponse` TypeScript
interface as the scoring engine reads it: the question identifier, the
selection marker, and the points mapping (a JavaScript object, i.e. an
association list in key-insertion order).  The creation timestamp is
ignored by the engine and omitted. -/
structure QuestionResponse where
  questionId : String
  selectedOption : String
  points : List (String × ℚ)
  deriving DecidableEq, Repr

/-- The JavaScript value a well-typed response presents to the validator. -/
def QuestionResponse.toRaw (r : QuestionResponse) : RawResponse :=
  ⟨JVal.vstr r.questionId, JVal.vstr r.selectedOption,
    JVal.vobj (r.points.map (fun e => (e.1, JVal.vnum e.2)))⟩

/-- Validation `validateResponses` applied to a well-typed response array, as it runs
at the start of `calculateResult`. -/
def validateTyped (rs : List QuestionResponse) : Except CalcError Unit :=
  validateResponses (RawInput.arr (rs.map QuestionResponse.toRaw))

/-- The test `r.selectedOption !== 'unknown' && r.selectedOption !== 'skip'`: the
filter used both for scoring and for counting answered questions. -/
def isAnswered (r : QuestionResponse) : Bool :=
  r.selectedOption != "unknown" && r.selectedOption != "skip"

/-- One step of the accumulation `animalScores[animal] += points` on the
insertion-ordered entry list of the `animalScores` object: a first-seen
animal is appended with its points, an existing key is updated in place
(JavaScript property assignment does not move a key). -/
def addPoints : List (String × ℚ) → String → ℚ → List (String × ℚ)
  | [], animal, p => [(animal, p)]
  | (b, s) :: rest, animal, p =>
    if b = animal then (b, s + p) :: rest else (b, s) :: addPoints rest animal p

/-- The loop `Object.entries(response.points).forEach(([animal, points]) => ...)`:
fold every entry of one response's points mapping into the running totals. -/
def accumPoints (scores : List (String × ℚ)) (ps : List (String × ℚ)) : List (String × ℚ) :=
  ps.foldl (fun sc e => addPoints sc e.1 e.2) scores

/-- The per-response step of `calculateResult`'s forEach: responses whose
marker is `'unknown'` or `'skip'` are skipped outright, any other response
has all its point entries added. -/
def accumResponse (scores : List (String × ℚ)) (r : QuestionResponse) : List (String × ℚ) :=
  if isAnswered r then accumPoints scores r.points else scores

/-- The `animalScores` object after the forEach over all responses, as an
association list in key-insertion (first-seen) order. -/
def animalScores (rs : List QuestionResponse) : List (String × ℚ) :=
  rs.foldl accumResponse []

/-- The count `const answeredQuestions = responses.filter(r => ...).length`. -/
def answeredQuestions (rs : List QuestionResponse) : ℕ :=
  (rs.filter isAnswered).length

/-- The value `const confidenceModifier = Math.min(answeredQuestions / 10, 1)` — the
completion damping factor of the spec. -/
def confidenceModifier (rs : List QuestionResponse) : ℚ :=
  min ((answeredQuestions rs : ℚ) / 10) 1

/-- JavaScript `Math.round`: round half toward positive infinity. -/
def mathRound (q : ℚ) : ℤ := (q + 1 / 2).floor

/-- The `SpiritAnimalScore` record produced by `calculateResult`.  The
`categoryBreakdown` field exists in the interface but is never populated
by the engine (always the empty object). -/
structure SpiritAnimalScore where
  animalName : String
  totalPoints : ℤ
  categoryBreakdown : List (String × ℚ)
  confidence : ℚ
  deriving DecidableEq, Repr

/-- The `.map` step of `calculateResult`: one `animalScores` entry becomes
a score record with `totalPoints = Math.round(score * confidenceModifier)`
and `confidence = confidenceModifier`. -/
def toScore (cm : ℚ) (e : String × ℚ) : SpiritAnimalScore :=
  ⟨e.1, mathRound (e.2 * cm), [], cm⟩

/-- Insert one score into a list already sorted by descending
`totalPoints`, after every element of greater-or-equal `totalPoints`. -/
def insertScore (a : SpiritAnimalScore) : List SpiritAnimalScore → List SpiritAnimalScore
  | [] => [a]
  | b :: rest =>
    if b.totalPoints < a.totalPoints then a :: b :: rest else b :: insertScore a rest

/-- The call `.sort((a, b) => b.totalPoints - a.totalPoints)`: the unique stable
descending sort by `totalPoints`, realized as a stable insertion sort. -/
def sortScores (l : List SpiritAnimalScore) : List SpiritAnimalScore :=
  l.foldl (fun acc a => insertScore a acc) []

/-- The whole score-construction pipeline of `calculateResult` after
validation: aggregate, damp, round, sort. -/
def aggregate (rs : List QuestionResponse) : List SpiritAnimalScore :=
  sortScores ((animalScores rs).map (toScore (confidenceModifier rs)))

/-- The method `SpiritAnimalCalculator.calculateResult`: validate, then aggregate
points over non-skipped responses, apply the damping factor with rounding,
and sort descending. -/
def calculateResult (rs : List QuestionResponse) : Except CalcError (List SpiritAnimalScore) :=
  match validateTyped rs with
  | Except.error e => Except.error e
  | Except.ok _ => Except.ok (aggregate rs)

/-- The two completion-ratio cutoffs of the confidence classifier. -/
structure ConfidenceThresholds where
  high : ℚ
  medium : ℚ
  deriving DecidableEq, Repr

/-- The `ScoringConfig` record: secondary-result inclusion threshold and
the confidence cutoffs. -/
structure ScoringConfig where
  secondaryAnimalThreshold : ℚ
  confidenceThresholds : ConfidenceThresholds
  deriving DecidableEq, Repr

/-- Modelled from the spec: the module defining `DEFAULT_CONFIG` (the
`types` file of the source) is not among the provided sources.  Per the
spec's external-interface section, the defaults are secondary threshold
0.70, high-confidence damping cutoff 1.0 and medium-confidence damping
cutoff 0.6. -/
def DEFAULT_CONFIG : ScoringConfig := ⟨7 / 10, ⟨1, 6 / 10⟩⟩

/-- The `CONFIDENCE_LEVELS` labels `'high' | 'medium' | 'low'`. -/
inductive Confidence where
  | high
  | medium
  | low
  deriving DecidableEq, Repr

/-- The method `SpiritAnimalCalculator.calculateConfidence`: first match wins among
high (enough completion and a 20-point lead), medium (enough completion
and a 10-point lead), low (otherwise).  With no secondary, the score
difference is the primary's own total. -/
def calculateConfidence (cfg : ScoringConfig) (primary : SpiritAnimalScore)
    (secondary : Option SpiritAnimalScore) : Confidence :=
  let scoreDifference : ℤ :=
    match secondary with
    | some s => primary.totalPoints - s.totalPoints
    | none => primary.totalPoints
  if cfg.confidenceThresholds.high ≤ primary.confidence ∧ 20 ≤ scoreDifference then
    Confidence.high
  else if cfg.confidenceThresholds.medium ≤ primary.confidence ∧ 10 ≤ scoreDifference then
    Confidence.medium
  else
    Confidence.low

/-- The assembled `QuizResult`. -/
structure QuizResult where
  primary : SpiritAnimalScore
  secondary : Option SpiritAnimalScore
  confidence : Confidence
  totalQuestionsAnswered : ℤ
  skippedQuestions : ℤ
  deriving DecidableEq, Repr

/-- The method `SpiritAnimalCalculator.getResultWithSecondary`: throws on an empty
score list; otherwise primary is the first element, the secondary is the
second element if it reaches the configured fraction of the primary's
total, and the answered/skipped counts are derived from the primary's
confidence with a hard-coded total of 15 questions. -/
def getResultWithSecondary (cfg : ScoringConfig) (scores : List SpiritAnimalScore) :
    Except CalcError QuizResult :=
  match scores with
  | [] => Except.error CalcError.noScores
  | primary :: rest =>
    let secondary := rest.head?
    let confidenceLevel := calculateConfidence cfg primary secondary
    let shouldShowSecondary : Bool :=
      match secondary with
      | some s =>
        decide ((primary.totalPoints : ℚ) * cfg.secondaryAnimalThreshold ≤ (s.totalPoints : ℚ))
      | none => false
    Except.ok
      ⟨primary, if shouldShowSecondary then secondary else none, confidenceLevel,
        mathRound (primary.confidence * 15), 15 - mathRound (primary.confidence * 15)⟩

/-- The `calculateQuizResult` utility: run `calculateResult`, then
`getResultWithSecondary`, propagating errors unchanged. -/
def calculateQuizResult (rs : List QuestionResponse) (cfg : ScoringConfig) :
    Except CalcError QuizResult :=
  match calculateResult rs with
  | Except.error e => Except.error e
  | Except.ok scores => getResultWithSecondary cfg scores

/-- Total points one points mapping assigns to one archetype (sum over
entries with that key). -/
def pointsFor : List (String × ℚ) → String → ℚ
  | [], _ => 0
  | e :: rest, a => (if e.1 = a then e.2 else 0) + pointsFor rest a

/-- The raw (pre-damping) total of one archetype, as the spec words it:
the sum of that archetype's point values over all responses whose marker
is neither skip nor unknown. -/
def rawTotal : List QuestionResponse → String → ℚ
  | [], _ => 0
  | r :: rest, a => (if isAnswered r then pointsFor r.points a else 0) + rawTotal rest a

/-- Spec wording: a non-empty string value. -/
def specNonemptyString : JVal → Bool
  | .vstr s => s != ""
  | _ => false

/-- Spec wording: the allowed selection markers, the six option letters or
the two sentinels. -/
def specAllowedMarkers : List String := ["A", "B", "C", "D", "E", "F", "skip", "unknown"]

/-- Spec wording: the selection marker is one of the allowed values. -/
def specMarkerAllowed : JVal → Bool
  | .vstr s => specAllowedMarkers.contains s
  | _ => false

/-- Spec wording: a present mapping from strings to non-negative numbers
(a mapping with a negative or non-numeric value does not qualify). -/
def specPointsMapping : JVal → Bool
  | .vobj es => es.all (fun e => match e.2 with | .vnum q => decide (0 ≤ q) | _ => false)
  | _ => false

/-- Spec wording of a rejected entry: it lacks a non-empty string question
identifier, or lacks a non-empty string selection marker, or its marker is
outside the allowed set, or its points mapping is missing, not a
string-to-number mapping, or has a negative or non-numeric value. -/
def specResponseBad (r : RawResponse) : Bool :=
  !specNonemptyString r.questionId || !specNonemptyString r.selectedOption ||
    !specMarkerAllowed r.selectedOption || !specPointsMapping r.points

/-- Spec wording of the validator's whole rejection condition: not a list,
or an empty list, or some bad entry. -/
def specBadInput : RawInput → Bool
  | .notAnArray => true
  | .arr rs => rs.isEmpty || rs.any specResponseBad

/-- Spec wording of the score difference used by the confidence
classifier: the primary's total minus the secondary's, or the primary's
own total when there is no secondary. -/
def specScoreDifference (primary : SpiritAnimalScore)
    (secondary : Option SpiritAnimalScore) : ℤ :=
  match secondary with
  | some s => primary.totalPoints - s.totalPoints
  | none => primary.totalPoints

/-- A value is an object in the validator's sense. -/
def isObjVal : JVal → Bool
  | .vobj _ => true
  | _ => false

/-! ### Concrete inputs used by witnesses and counterexamples -/

/-- The spec's end-to-end scenario 2: five answered responses each
awarding fox 4 and wolf 3, one skipped and one unknown response. -/
def scenarioTwo : List QuestionResponse :=
  [⟨"q1", "A", [("fox", 4), ("wolf", 3)]⟩, ⟨"q2", "A", [("fox", 4), ("wolf", 3)]⟩,
    ⟨"q3", "A", [("fox", 4), ("wolf", 3)]⟩, ⟨"q4", "A", [("fox", 4), ("wolf", 3)]⟩,
    ⟨"q5", "A", [("fox", 4), ("wolf", 3)]⟩, ⟨"q6", "skip", []⟩, ⟨"q7", "unknown", []⟩]

/-- Five answered responses where wolf (raw 9, seen first) and fox
(raw 10) both damp-and-round to 5 at factor one half: a rounding tie. -/
def rsCounterC8 : List QuestionResponse :=
  [⟨"q1", "A", [("wolf", 9), ("fox", 10)]⟩, ⟨"q2", "A", []⟩, ⟨"q3", "A", []⟩,
    ⟨"q4", "A", []⟩, ⟨"q5", "A", []⟩]

/-- One answered response awarding wolf 2 points. -/
def rsShort : List QuestionResponse := [⟨"q1", "A", [("wolf", 2)]⟩]

/-- The same response plus one answered response with an empty points
mapping: one more answered question, identical point contributions. -/
def rsLonger : List QuestionResponse :=
  [⟨"q1", "A", [("wolf", 2)]⟩, ⟨"q2", "A", []⟩]

/-- A skipped response carrying a non-empty points mapping, the probe the
spec asks to test skip-exclusion with. -/
def skipProbe : QuestionResponse := ⟨"qs", "skip", [("fox", 99)]⟩

/-! ### Aggregation lemmas -/

theorem pointsFor_addPoints (l : List (String × ℚ)) (b : String) (p : ℚ) (a : String) :
    pointsFor (addPoints l b p) a = pointsFor l a + (if b = a then p else 0) := by
  induction l with
  | nil => simp [addPoints, pointsFor]
  | cons e rest ih =>
    obtain ⟨c, s⟩ := e
    by_cases hc : c = b
    · subst hc
      simp only [addPoints, if_pos rfl, pointsFor]
      by_cases hca : c = a <;> simp [hca] <;> ring
    · simp only [addPoints, if_neg hc, pointsFor, ih]
      ring

theorem pointsFor_accumPoints (sc ps : List (String × ℚ)) (a : String) :
    pointsFor (accumPoints sc ps) a = pointsFor sc a + pointsFor ps a := by
  induction ps generalizing sc with
  | nil => simp [accumPoints, pointsFor]
  | cons e rest ih =>
    obtain ⟨b, p⟩ := e
    simp only [accumPoints, List.foldl_cons] at *
    rw [ih, pointsFor_addPoints]
    simp only [pointsFor]
    by_cases hba : b = a <;> simp [hba] <;> ring

theorem pointsFor_foldl (rs : List QuestionResponse) (sc : List (String × ℚ)) (a : String) :
    pointsFor (rs.foldl accumResponse sc) a = pointsFor sc a + rawTotal rs a := by
  induction rs generalizing sc with
  | nil => simp [rawTotal]
  | cons r rest ih =>
    simp only [List.foldl_cons, rawTotal, ih]
    by_cases hr : isAnswered r
    · simp [accumResponse, hr, pointsFor_accumPoints]; ring
    · simp [accumResponse, hr]

theorem pointsFor_animalScores (rs : List QuestionResponse) (a : String) :
    pointsFor (animalScores rs) a = rawTotal rs a := by
  simpa [pointsFor] using pointsFor_foldl rs [] a

theorem mem_keys_addPoints (l : List (String × ℚ)) (b : String) (p : ℚ) (a : String) :
    a ∈ (addPoints l b p).map Prod.fst ↔ a ∈ l.map Prod.fst ∨ a = b := by
  induction l with
  | nil => simp [addPoints]
  | cons e rest ih =>
    obtain ⟨c, s⟩ := e
    by_cases hc : c = b
    · subst hc
      simp [addPoints]
      tauto
    · simp [addPoints, hc, ih]
      tauto

theorem keysNodup_addPoints (l : List (String × ℚ)) (b : String) (p : ℚ)
    (h : (l.map Prod.fst).Nodup) : ((addPoints l b p).map Prod.fst).Nodup := by
  induction l with
  | nil => simp [addPoints]
  | cons e rest ih =>
    obtain ⟨c, s⟩ := e
    simp only [List.map_cons, List.nodup_cons] at h
    by_cases hc : c = b
    · subst hc
      simpa [addPoints, List.nodup_cons] using h
    · simp only [addPoints, if_neg hc, List.map_cons, List.nodup_cons]
      refine ⟨?_, ih h.2⟩
      rw [mem_keys_addPoints]
      rintro (hm | hm)
      · exact h.1 hm
      · exact hc hm

theorem keysNodup_accumPoints (sc ps : List (String × ℚ))
    (h : (sc.map Prod.fst).Nodup) : ((accumPoints sc ps).map Prod.fst).Nodup := by
  induction ps generalizing sc with
  | nil => simpa [accumPoints]
  | cons e rest ih =>
    simp only [accumPoints, List.foldl_cons] at *
    exact ih _ (keysNodup_addPoints _ _ _ h)

theorem keysNodup_animalScores (rs : List QuestionResponse) :
    ((animalScores rs).map Prod.fst).Nodup := by
  suffices h : ∀ sc : List (String × ℚ), (sc.map Prod.fst).Nodup →
      ((rs.foldl accumResponse sc).map Prod.fst).Nodup by
    exact h [] (by simp)
  induction rs with
  | nil => intro sc h; simpa
  | cons r rest ih =>
    intro sc h
    simp only [List.foldl_cons]
    apply ih
    unfold accumResponse
    by_cases hr : isAnswered r
    · simpa [hr] using keysNodup_accumPoints sc r.points h
    · simpa [hr]

theorem pointsFor_eq_zero_of_not_mem (l : List (String × ℚ)) (a : String)
    (h : a ∉ l.map Prod.fst) : pointsFor l a = 0 := by
  induction l with
  | nil => rfl
  | cons e rest ih =>
    simp only [List.map_cons, List.mem_cons] at h
    push_neg at h
    have h1 : ¬ e.1 = a := fun he => h.1 he.symm
    simp [pointsFor, h1, ih h.2]

theorem snd_eq_pointsFor_of_mem (l : List (String × ℚ)) (a : String) (s : ℚ)
    (hnd : (l.map Prod.fst).Nodup) (hm : (a, s) ∈ l) : s = pointsFor l a := by
  induction l with
  | nil => cases hm
  | cons e rest ih =>
    obtain ⟨c, t⟩ := e
    simp only [List.map_cons, List.nodup_cons] at hnd
    rcases List.mem_cons.mp hm with he | hm2
    · rw [Prod.mk.injEq] at he
      obtain ⟨rfl, rfl⟩ := he
      simp [pointsFor, pointsFor_eq_zero_of_not_mem _ _ hnd.1]
    · have ha : a ∈ rest.map Prod.fst := List.mem_map.mpr ⟨(a, s), hm2, rfl⟩
      have hca : ¬ c = a := fun hca => hnd.1 (hca ▸ ha)
      simp [pointsFor, hca, ih hnd.2 hm2]

/-! ### Sorting lemmas -/

theorem mem_insertScore (a x : SpiritAnimalScore) (l : List SpiritAnimalScore) :
    x ∈ insertScore a l ↔ x = a ∨ x ∈ l := by
  induction l with
  | nil => simp [insertScore]
  | cons b rest ih =>
    by_cases hb : b.totalPoints < a.totalPoints
    · simp only [insertScore, if_pos hb, List.mem_cons]
    · simp only [insertScore, if_neg hb, List.mem_cons, ih]
      tauto

theorem pairwise_insertScore (a : SpiritAnimalScore) (l : List SpiritAnimalScore)
    (h : l.Pairwise (fun x y => y.totalPoints ≤ x.totalPoints)) :
    (insertScore a l).Pairwise (fun x y => y.totalPoints ≤ x.totalPoints) := by
  induction l with
  | nil => simp [insertScore]
  | cons b rest ih =>
    rw [List.pairwise_cons] at h
    by_cases hb : b.totalPoints < a.totalPoints
    · simp only [insertScore, if_pos hb, List.pairwise_cons, List.mem_cons]
      refine ⟨?_, h.1, h.2⟩
      rintro x (rfl | hx)
      · exact le_of_lt hb
      · exact le_trans (h.1 x hx) (le_of_lt hb)
    · simp only [insertScore, if_neg hb, List.pairwise_cons]
      refine ⟨?_, ih h.2⟩
      intro x hx
      rcases (mem_insertScore a x rest).mp hx with rfl | hx2
      · exact le_of_not_lt hb
      · exact h.1 x hx2

theorem length_insertScore (a : SpiritAnimalScore) (l : List SpiritAnimalScore) :
    (insertScore a l).length = l.length + 1 := by
  induction l with
  | nil => rfl
  | cons b rest ih =>
    by_cases hb : b.totalPoints < a.totalPoints
    · simp [insertScore, hb]
    · simp [insertScore, hb, ih]

theorem sortScores_go_pairwise (l acc : List SpiritAnimalScore)
    (h : acc.Pairwise (fun x y => y.totalPoints ≤ x.totalPoints)) :
    (l.foldl (fun acc a => insertScore a acc) acc).Pairwise
      (fun x y => y.totalPoints ≤ x.totalPoints) := by
  induction l generalizing acc with
  | nil => simpa
  | cons a rest ih =>
    simp only [List.foldl_cons]
    exact ih _ (pairwise_insertScore a acc h)

theorem pairwise_sortScores (l : List SpiritAnimalScore) :
    (sortScores l).Pairwise (fun x y => y.totalPoints ≤ x.totalPoints) :=
  sortScores_go_pairwise l [] (by simp)

theorem sortScores_go_mem (l acc : List SpiritAnimalScore) (x : SpiritAnimalScore) :
    x ∈ l.foldl (fun acc a => insertScore a acc) acc ↔ x ∈ acc ∨ x ∈ l := by
  induction l generalizing acc with
  | nil => simp
  | cons a rest ih =>
    simp only [List.foldl_cons, ih, mem_insertScore, List.mem_cons]
    tauto

theorem mem_sortScores (l : List SpiritAnimalScore) (x : SpiritAnimalScore) :
    x ∈ sortScores l ↔ x ∈ l := by
  simp [sortScores, sortScores_go_mem]

theorem sortScores_go_length (l acc : List SpiritAnimalScore) :
    (l.foldl (fun acc a => insertScore a acc) acc).length = acc.length + l.length := by
  induction l generalizing acc with
  | nil => simp
  | cons a rest ih =>
    simp only [List.foldl_cons, ih, length_insertScore, List.length_cons]
    omega

theorem sortScores_eq_nil_iff (l : List SpiritAnimalScore) :
    sortScores l = [] ↔ l = [] := by
  constructor
  · intro h
    have hlen : (sortScores l).length = [].length + l.length := sortScores_go_length l []
    rw [h] at hlen
    simp only [List.length_nil, Nat.zero_add] at hlen
    exact List.length_eq_zero.mp hlen.symm
  · rintro rfl
    rfl

/-! ### Nonemptiness of the aggregation -/

theorem addPoints_ne_nil (l : List (String × ℚ)) (b : String) (p : ℚ) :
    addPoints l b p ≠ [] := by
  cases l with
  | nil => simp [addPoints]
  | cons e rest =>
    obtain ⟨c, s⟩ := e
    by_cases hc : c = b <;> simp [addPoints, hc]

theorem accumPoints_ne_nil_of_ne_nil (sc ps : List (String × ℚ)) (h : sc ≠ []) :
    accumPoints sc ps ≠ [] := by
  induction ps generalizing sc with
  | nil => simpa [accumPoints]
  | cons e rest ih =>
    simp only [accumPoints, List.foldl_cons] at *
    exact ih _ (addPoints_ne_nil _ _ _)

theorem accumPoints_ne_nil_of_points_ne_nil (sc ps : List (String × ℚ)) (h : ps ≠ []) :
    accumPoints sc ps ≠ [] := by
  cases ps with
  | nil => cases h rfl
  | cons e rest =>
    simp only [accumPoints, List.foldl_cons]
    exact accumPoints_ne_nil_of_ne_nil _ _ (addPoints_ne_nil _ _ _)

theorem animalScores_go_ne_nil (rs : List QuestionResponse) (sc : List (String × ℚ))
    (h : sc ≠ []) : rs.foldl accumResponse sc ≠ [] := by
  induction rs generalizing sc with
  | nil => simpa
  | cons r rest ih =>
    simp only [List.foldl_cons]
    apply ih
    unfold accumResponse
    by_cases hr : isAnswered r
    · simpa [hr] using accumPoints_ne_nil_of_ne_nil sc r.points h
    · simpa [hr]

theorem animalScores_eq_nil_iff (rs : List QuestionResponse) :
    animalScores rs = [] ↔ ∀ r ∈ rs, isAnswered r = false ∨ r.points = [] := by
  rw [animalScores]
  induction rs with
  | nil => simp
  | cons r rest ih =>
    simp only [List.foldl_cons, List.mem_cons]
    constructor
    · intro h
      by_cases hr : isAnswered r
      · by_cases hp : r.points = []
        · have : accumResponse [] r = [] := by simp [accumResponse, hr, hp, accumPoints]
          rw [this] at h
          intro x hx
          rcases hx with rfl | hx2
          · exact Or.inr hp
          · exact ih.mp h x hx2
        · exfalso
          have hne : accumResponse [] r ≠ [] := by
            simpa [accumResponse, hr] using accumPoints_ne_nil_of_points_ne_nil [] r.points hp
          exact animalScores_go_ne_nil rest _ hne h
      · have : accumResponse [] r = [] := by simp [accumResponse, hr]
        rw [this] at h
        intro x hx
        rcases hx with rfl | hx2
        · exact Or.inl (by simpa using hr)
        · exact ih.mp h x hx2
    · intro h
      have hr := h r (Or.inl rfl)
      have : accumResponse [] r = [] := by
        rcases hr with hr | hr
        · simp [accumResponse, hr]
        · by_cases ha : isAnswered r <;> simp [accumResponse, ha, hr, accumPoints]
      rw [this]
      exact ih.mpr (fun x hx => h x (Or.inr hx))

/-! ### Aggregate-level lemmas -/

theorem mem_aggregate_iff (rs : List QuestionResponse) (x : SpiritAnimalScore) :
    x ∈ aggregate rs ↔ ∃ e ∈ animalScores rs, x = toScore (confidenceModifier rs) e := by
  rw [aggregate, mem_sortScores, List.mem_map]
  constructor
  · rintro ⟨e, he, rfl⟩
    exact ⟨e, he, rfl⟩
  · rintro ⟨e, he, rfl⟩
    exact ⟨e, he, rfl⟩

theorem mem_aggregate_spec (rs : List QuestionResponse) (x : SpiritAnimalScore)
    (hx : x ∈ aggregate rs) :
    x.confidence = confidenceModifier rs ∧
      x.totalPoints = mathRound (rawTotal rs x.animalName * confidenceModifier rs) ∧
      x.animalName ∈ (animalScores rs).map Prod.fst := by
  obtain ⟨e, he, rfl⟩ := (mem_aggregate_iff rs x).mp hx
  obtain ⟨a, s⟩ := e
  have hs : s = pointsFor (animalScores rs) a :=
    snd_eq_pointsFor_of_mem _ _ _ (keysNodup_animalScores rs) he
  refine ⟨rfl, ?_, List.mem_map.mpr ⟨(a, s), he, rfl⟩⟩
  simp only [toScore]
  rw [hs, pointsFor_animalScores]

theorem aggregate_eq_nil_iff (rs : List QuestionResponse) :
    aggregate rs = [] ↔ ∀ r ∈ rs, isAnswered r = false ∨ r.points = [] := by
  rw [aggregate, sortScores_eq_nil_iff, List.map_eq_nil, animalScores_eq_nil_iff]

theorem calculateResult_ok_iff (rs : List QuestionResponse)
    (scores : List SpiritAnimalScore) :
    calculateResult rs = Except.ok scores ↔
      validateTyped rs = Except.ok () ∧ scores = aggregate rs := by
  rw [calculateResult]
  cases h : validateTyped rs with
  | ok u =>
    cases u
    simp [eq_comm]
  | error e => simp

theorem calculateResult_error_iff (rs : List QuestionResponse) (e : CalcError) :
    calculateResult rs = Except.error e ↔ validateTyped rs = Except.error e := by
  rw [calculateResult]
  cases h : validateTyped rs with
  | ok u => simp
  | error f => simp

/-- Every aggregated archetype's name appears because some answered
response mentions it: `rawTotal` is the sum the spec describes.  The head
of the sorted aggregation dominates every member. -/
theorem head_totalPoints_max (rs : List QuestionResponse) (p : SpiritAnimalScore)
    (rest : List SpiritAnimalScore) (h : aggregate rs = p :: rest) :
    ∀ x ∈ aggregate rs, x.totalPoints ≤ p.totalPoints := by
  intro x hx
  have hpair := pairwise_sortScores ((animalScores rs).map (toScore (confidenceModifier rs)))
  rw [show sortScores ((animalScores rs).map (toScore (confidenceModifier rs))) = aggregate rs
    from rfl, h, List.pairwise_cons] at hpair
  rw [h, List.mem_cons] at hx
  rcases hx with rfl | hx
  · exact le_refl _
  · exact hpair.1 x hx

/-! ### Validator characterization -/

theorem truthyString_check (v : JVal) :
    (!jsTruthy v || jsTypeof v != "string") = !specNonemptyString v := by
  cases v <;> simp [jsTruthy, jsTypeof, specNonemptyString]

theorem marker_check (v : JVal) :
    jsIncludes validOptions v = specMarkerAllowed v := by
  cases v with
  | vstr s =>
    simp only [jsIncludes, specMarkerAllowed]
    apply Bool.eq_iff_iff.mpr
    rw [List.contains, List.contains, List.elem_iff, List.elem_iff]
    simp only [validOptions, specAllowedMarkers, List.mem_cons, List.not_mem_nil, or_false]
    tauto
  | vnum q => rfl
  | vbool b => rfl
  | vobj es => rfl
  | vnull => rfl
  | vundef => rfl

theorem objCheck (v : JVal) :
    (!jsTruthy v || jsTypeof v != "object") = !isObjVal v := by
  cases v <;> simp [jsTruthy, jsTypeof, isObjVal]

theorem validatePointsEntries_ok_iff (i : ℕ) (es : List (String × JVal)) :
    validatePointsEntries i es = Except.ok () ↔
      (es.all (fun e => match e.2 with | JVal.vnum q => decide (0 ≤ q) | _ => false)) = true := by
  induction es with
  | nil => simp [validatePointsEntries]
  | cons e rest ih =>
    obtain ⟨animal, v⟩ := e
    cases v with
    | vnum q =>
      by_cases hq : q < 0
      · simp [validatePointsEntries, hq, not_le.mpr hq]
      · simp [validatePointsEntries, hq, ih, not_lt.mp hq]
    | vstr s => simp [validatePointsEntries]
    | vbool b => simp [validatePointsEntries]
    | vobj o => simp [validatePointsEntries]
    | vnull => simp [validatePointsEntries]
    | vundef => simp [validatePointsEntries]

theorem validatePointsEntries_error_kind (i : ℕ) (es : List (String × JVal)) (e : CalcError)
    (h : validatePointsEntries i es = Except.error e) : ∃ msg, e = CalcError.validationError msg := by
  induction es with
  | nil => cases h
  | cons p rest ih =>
    obtain ⟨animal, v⟩ := p
    cases v with
    | vnum q =>
      by_cases hq : q < 0
      · simp only [validatePointsEntries, if_pos hq, Except.error.injEq] at h
        exact ⟨_, h.symm⟩
      · simp only [validatePointsEntries, if_neg hq] at h
        exact ih h
    | vstr s => exact ⟨_, by simpa [validatePointsEntries] using h.symm⟩
    | vbool b => exact ⟨_, by simpa [validatePointsEntries] using h.symm⟩
    | vobj o => exact ⟨_, by simpa [validatePointsEntries] using h.symm⟩
    | vnull => exact ⟨_, by simpa [validatePointsEntries] using h.symm⟩
    | vundef => exact ⟨_, by simpa [validatePointsEntries] using h.symm⟩

theorem validateEntry_ok_iff (i : ℕ) (r : RawResponse) :
    validateEntry i r = Except.ok () ↔ specResponseBad r = false := by
  rw [validateEntry, truthyString_check r.questionId, truthyString_check r.selectedOption,
    marker_check r.selectedOption, objCheck r.points]
  cases hA : specNonemptyString r.questionId with
  | false => simp [specResponseBad, hA]
  | true =>
    cases hB : specNonemptyString r.selectedOption with
    | false => simp [specResponseBad, hA, hB]
    | true =>
      cases hC : specMarkerAllowed r.selectedOption with
      | false => simp [specResponseBad, hA, hB, hC]
      | true =>
        cases hp : r.points with
        | vobj es =>
          simp [specResponseBad, hA, hB, hC, hp, isObjVal, jsEntries,
            validatePointsEntries_ok_iff, specPointsMapping]
        | vstr s => simp [specResponseBad, hA, hB, hC, hp, isObjVal, specPointsMapping]
        | vnum q => simp [specResponseBad, hA, hB, hC, hp, isObjVal, specPointsMapping]
        | vbool b => simp [specResponseBad, hA, hB, hC, hp, isObjVal, specPointsMapping]
        | vnull => simp [specResponseBad, hA, hB, hC, hp, isObjVal, specPointsMapping]
        | vundef => simp [specResponseBad, hA, hB, hC, hp, isObjVal, specPointsMapping]

theorem validateEntry_error_kind (i : ℕ) (r : RawResponse) (e : CalcError)
    (h : validateEntry i r = Except.error e) : ∃ msg, e = CalcError.validationError msg := by
  rw [validateEntry] at h
  split_ifs at h with h1 h2 h3 h4
  · exact ⟨_, (Except.error.inj h).symm⟩
  · exact ⟨_, (Except.error.inj h).symm⟩
  · exact ⟨_, (Except.error.inj h).symm⟩
  · exact ⟨_, (Except.error.inj h).symm⟩
  · exact validatePointsEntries_error_kind _ _ _ h

theorem validateEntries_ok_iff (i : ℕ) (rs : List RawResponse) :
    validateEntries i rs = Except.ok () ↔ ∀ r ∈ rs, specResponseBad r = false := by
  induction rs generalizing i with
  | nil => simp [validateEntries]
  | cons r rest ih =>
    simp only [validateEntries]
    cases hv : validateEntry i r with
    | ok u =>
      cases u
      have hr : specResponseBad r = false := (validateEntry_ok_iff i r).mp hv
      simp [ih, hr]
    | error e =>
      have hr : ¬ specResponseBad r = false := fun hc => by
        rw [← validateEntry_ok_iff i r, hv] at hc
        cases hc
      simp only [List.mem_cons]
      constructor
      · intro hc
        cases hc
      · intro hall
        exact absurd (hall r (Or.inl rfl)) hr

theorem validateEntries_error_kind (i : ℕ) (rs : List RawResponse) (e : CalcError)
    (h : validateEntries i rs = Except.error e) : ∃ msg, e = CalcError.validationError msg := by
  induction rs generalizing i with
  | nil => cases h
  | cons r rest ih =>
    simp only [validateEntries] at h
    cases hv : validateEntry i r with
    | ok u =>
      rw [hv] at h
      exact ih _ h
    | error f =>
      rw [hv] at h
      exact (Except.error.inj h) ▸ validateEntry_error_kind i r f hv

theorem validateResponses_ok_iff (input : RawInput) :
    validateResponses input = Except.ok () ↔ specBadInput input = false := by
  cases input with
  | notAnArray => simp [validateResponses, specBadInput]
  | arr rs =>
    cases rs with
    | nil => simp [validateResponses, specBadInput]
    | cons r rest =>
      rw [validateResponses]
      rw [if_neg (by simp)]
      rw [validateEntries_ok_iff]
      simp only [specBadInput, List.isEmpty_cons, Bool.false_or, List.any_eq_false]
      constructor
      · intro hall x hx
        rw [hall x hx]
        simp
      · intro hall x hx
        have := hall x hx
        simpa using this

theorem validateResponses_error_kind (input : RawInput) (e : CalcError)
    (h : validateResponses input = Except.error e) : ∃ msg, e = CalcError.validationError msg := by
  cases input with
  | notAnArray => exact ⟨_, (Except.error.inj h).symm⟩
  | arr rs =>
    rw [validateResponses] at h
    split_ifs at h with h1
    · exact ⟨_, (Except.error.inj h).symm⟩
    · exact validateEntries_error_kind _ _ _ h

theorem validateResponses_fails_iff (input : RawInput) :
    (∃ msg, validateResponses input = Except.error (CalcError.validationError msg)) ↔
      specBadInput input = true := by
  constructor
  · rintro ⟨msg, hmsg⟩
    cases hb : specBadInput input with
    | true => rfl
    | false =>
      rw [← validateResponses_ok_iff] at hb
      rw [hb] at hmsg
      cases hmsg
  · intro hb
    cases he : validateResponses input with
    | ok u =>
      cases u
      rw [validateResponses_ok_iff] at he
      rw [he] at hb
      cases hb
    | error e =>
      obtain ⟨msg, rfl⟩ := validateResponses_error_kind _ _ he
      exact ⟨msg, rfl⟩

/-! ### Consequences of validation for well-typed responses -/

theorem validateTyped_points_nonneg (rs : List QuestionResponse)
    (h : validateTyped rs = Except.ok ()) :
    ∀ r ∈ rs, ∀ e ∈ r.points, (0 : ℚ) ≤ e.2 := by
  rw [validateTyped, validateResponses_ok_iff] at h
  intro r hr e he
  simp only [specBadInput, Bool.or_eq_false_iff, List.any_eq_false] at h
  have hraw : ¬ specResponseBad r.toRaw = true :=
    h.2 r.toRaw (List.mem_map.mpr ⟨r, hr, rfl⟩)
  rw [Bool.not_eq_true] at hraw
  simp only [specResponseBad, Bool.or_eq_false_iff, Bool.not_eq_false'] at hraw
  have hp := hraw.2
  simp only [QuestionResponse.toRaw, specPointsMapping, List.all_eq_true] at hp
  have := hp (e.1, JVal.vnum e.2) (List.mem_map.mpr ⟨e, he, rfl⟩)
  simpa using this

theorem pointsFor_nonneg (ps : List (String × ℚ)) (a : String)
    (h : ∀ e ∈ ps, (0 : ℚ) ≤ e.2) : 0 ≤ pointsFor ps a := by
  induction ps with
  | nil => simp [pointsFor]
  | cons e rest ih =>
    simp only [pointsFor]
    have h1 : (0 : ℚ) ≤ e.2 := h e (List.mem_cons_self e rest)
    have h2 := ih (fun x hx => h x (List.mem_cons_of_mem e hx))
    by_cases hc : e.1 = a
    · rw [if_pos hc]
      linarith
    · rw [if_neg hc]
      linarith

theorem rawTotal_nonneg (rs : List QuestionResponse) (a : String)
    (h : ∀ r ∈ rs, ∀ e ∈ r.points, (0 : ℚ) ≤ e.2) : 0 ≤ rawTotal rs a := by
  induction rs with
  | nil => simp [rawTotal]
  | cons r rest ih =>
    simp only [rawTotal]
    have h1 := pointsFor_nonneg r.points a (h r (List.mem_cons_self r rest))
    have h2 := ih (fun x hx => h x (List.mem_cons_of_mem r hx))
    by_cases hc : isAnswered r
    · rw [if_pos hc]
      linarith
    · rw [if_neg hc]
      linarith

/-! ### Arithmetic lemmas about the damping factor and rounding -/

theorem mathRound_eq_floor (q : ℚ) : mathRound q = ⌊q + 1 / 2⌋ := by
  rw [mathRound, Rat.floor_def', Rat.floor_def]

theorem mathRound_mono (a b : ℚ) (h : a ≤ b) : mathRound a ≤ mathRound b := by
  rw [mathRound_eq_floor, mathRound_eq_floor]
  exact Int.floor_le_floor (by linarith)

theorem confidenceModifier_le_one (rs : List QuestionResponse) : confidenceModifier rs ≤ 1 :=
  min_le_right _ _

theorem confidenceModifier_nonneg (rs : List QuestionResponse) : 0 ≤ confidenceModifier rs := by
  rw [confidenceModifier]
  apply le_min
  · positivity
  · norm_num

theorem confidenceModifier_mono (rs rs' : List QuestionResponse)
    (h : answeredQuestions rs ≤ answeredQuestions rs') :
    confidenceModifier rs ≤ confidenceModifier rs' := by
  rw [confidenceModifier, confidenceModifier]
  apply min_le_min _ (le_refl 1)
  have : (answeredQuestions rs : ℚ) ≤ (answeredQuestions rs' : ℚ) := by exact_mod_cast h
  linarith

theorem confidenceModifier_strict_mono (rs rs' : List QuestionResponse)
    (h : answeredQuestions rs < answeredQuestions rs')
    (hlt : answeredQuestions rs < 10) :
    confidenceModifier rs < confidenceModifier rs' := by
  have hcast : (answeredQuestions rs : ℚ) < (answeredQuestions rs' : ℚ) := by exact_mod_cast h
  have hcast10 : (answeredQuestions rs : ℚ) < 10 := by exact_mod_cast hlt
  have hL : confidenceModifier rs = (answeredQuestions rs : ℚ) / 10 := by
    rw [confidenceModifier]
    apply min_eq_left
    linarith
  rw [hL, confidenceModifier]
  apply lt_min
  · linarith
  · linarith

/-! ### Reduction of the result assembler -/

theorem getResultWithSecondary_single (cfg : ScoringConfig) (p : SpiritAnimalScore) :
    getResultWithSecondary cfg [p] =
      Except.ok ⟨p, none, calculateConfidence cfg p none,
        mathRound (p.confidence * 15), 15 - mathRound (p.confidence * 15)⟩ := rfl

theorem getResultWithSecondary_pair (cfg : ScoringConfig) (p s1 : SpiritAnimalScore)
    (rest : List SpiritAnimalScore) :
    getResultWithSecondary cfg (p :: s1 :: rest) =
      Except.ok ⟨p,
        if (p.totalPoints : ℚ) * cfg.secondaryAnimalThreshold ≤ (s1.totalPoints : ℚ) then
          some s1
        else none,
        calculateConfidence cfg p (some s1),
        mathRound (p.confidence * 15), 15 - mathRound (p.confidence * 15)⟩ := by
  by_cases hc : (p.totalPoints : ℚ) * cfg.secondaryAnimalThreshold ≤ (s1.totalPoints : ℚ) <;>
    simp [getResultWithSecondary, hc]

/-! ### Claim theorems -/

/-- C1: for every validated response list the damping factor is
min(answeredCount / 10, 1), every aggregated archetype's totalPoints is
round(rawTotal times the damping factor), and every record carries the
damping factor as its confidence. -/
theorem claim_C1 (responses : List QuestionResponse)
    (h : validateTyped responses = Except.ok ()) :
    confidenceModifier responses =
        min (((responses.filter isAnswered).length : ℚ) / 10) 1 ∧
      ∃ results, calculateResult responses = Except.ok results ∧
        ∀ sc ∈ results,
          sc.totalPoints =
              mathRound (rawTotal responses sc.animalName * confidenceModifier responses) ∧
            sc.confidence = confidenceModifier responses := by
  refine ⟨rfl, aggregate responses, (calculateResult_ok_iff _ _).mpr ⟨h, rfl⟩, ?_⟩
  intro sc hsc
  have hspec := mem_aggregate_spec responses sc hsc
  exact ⟨hspec.2.1, hspec.1⟩

/-- Witness for C1: the spec's scenario 2 passes validation and the
conclusion holds there. -/
theorem claim_C1_witness :
    confidenceModifier scenarioTwo =
        min (((scenarioTwo.filter isAnswered).length : ℚ) / 10) 1 ∧
      ∃ results, calculateResult scenarioTwo = Except.ok results ∧
        ∀ sc ∈ results,
          sc.totalPoints =
              mathRound (rawTotal scenarioTwo sc.animalName * confidenceModifier scenarioTwo) ∧
            sc.confidence = confidenceModifier scenarioTwo :=
  claim_C1 scenarioTwo (by decide)

/-- C3: the confidence classifier is total and first-match-wins: high
exactly when the damping factor reaches the high cutoff and the score
difference is at least 20; otherwise medium when the medium cutoff and a
difference of at least 10 are reached; otherwise low. -/
theorem claim_C3 (cfg : ScoringConfig) (primary : SpiritAnimalScore)
    (secondary : Option SpiritAnimalScore) :
    (calculateConfidence cfg primary secondary = Confidence.high ↔
        cfg.confidenceThresholds.high ≤ primary.confidence ∧
          20 ≤ specScoreDifference primary secondary) ∧
      (calculateConfidence cfg primary secondary = Confidence.medium ↔
        ¬(cfg.confidenceThresholds.high ≤ primary.confidence ∧
            20 ≤ specScoreDifference primary secondary) ∧
          cfg.confidenceThresholds.medium ≤ primary.confidence ∧
            10 ≤ specScoreDifference primary secondary) ∧
      (calculateConfidence cfg primary secondary = Confidence.low ↔
        ¬(cfg.confidenceThresholds.high ≤ primary.confidence ∧
            20 ≤ specScoreDifference primary secondary) ∧
          ¬(cfg.confidenceThresholds.medium ≤ primary.confidence ∧
            10 ≤ specScoreDifference primary secondary)) := by
  have hd : (match secondary with
      | some s => primary.totalPoints - s.totalPoints
      | none => primary.totalPoints) = specScoreDifference primary secondary := by
    cases secondary <;> rfl
  simp only [calculateConfidence, hd]
  split_ifs with h1 h2
  · simp [h1]
  · simp [h1, h2]
  · simp [h1, h2]

/-- C4: the validator fails with a ValidationError exactly on the spec's
rejection condition, only ever with a ValidationError, and a validation
failure reaches the caller of calculateResult unchanged, before any
aggregation output is produced. -/
theorem claim_C4 :
    (∀ input : RawInput,
        (∃ msg, validateResponses input = Except.error (CalcError.validationError msg)) ↔
          specBadInput input = true) ∧
      (∀ (input : RawInput) (e : CalcError), validateResponses input = Except.error e →
        ∃ msg, e = CalcError.validationError msg) ∧
      (∀ (rs : List QuestionResponse) (e : CalcError), validateTyped rs = Except.error e →
        calculateResult rs = Except.error e) :=
  ⟨validateResponses_fails_iff, validateResponses_error_kind,
    fun rs e h => (calculateResult_error_iff rs e).mpr h⟩

/-- Witness for C4: the empty list is rejected with a ValidationError and
calculateResult propagates it. -/
theorem claim_C4_witness :
    specBadInput (RawInput.arr []) = true ∧
      (∃ msg, validateResponses (RawInput.arr []) =
        Except.error (CalcError.validationError msg)) ∧
      calculateResult [] =
        Except.error (CalcError.validationError "At least one response is required") :=
  ⟨by decide, (claim_C4.1 (RawInput.arr [])).mpr (by decide),
    claim_C4.2.2 [] (CalcError.validationError "At least one response is required") (by decide)⟩

/-- C2: in every result assembled from the engine's aggregated scores the
primary dominates every aggregated totalPoints, and the secondary field
holds s exactly when s is the rank-1 element and reaches the configured
fraction of the primary's total. -/
theorem claim_C2 (cfg : ScoringConfig) (responses : List QuestionResponse)
    (scores : List SpiritAnimalScore) (result : QuizResult)
    (hs : calculateResult responses = Except.ok scores)
    (hr : getResultWithSecondary cfg scores = Except.ok result) :
    (∀ sc ∈ scores, sc.totalPoints ≤ result.primary.totalPoints) ∧
      ∀ s, result.secondary = some s ↔
        scores.tail.head? = some s ∧
          (result.primary.totalPoints : ℚ) * cfg.secondaryAnimalThreshold ≤
            (s.totalPoints : ℚ) := by
  obtain ⟨hval, hagg⟩ := (calculateResult_ok_iff _ _).mp hs
  cases scores with
  | nil => cases hr
  | cons p rest =>
    have hmax : ∀ sc ∈ p :: rest, sc.totalPoints ≤ p.totalPoints :=
      hagg ▸ head_totalPoints_max responses p rest hagg.symm
    cases rest with
    | nil =>
      rw [getResultWithSecondary_single] at hr
      obtain rfl := (Except.ok.inj hr).symm
      exact ⟨hmax, fun s => by simp⟩
    | cons s1 rest' =>
      rw [getResultWithSecondary_pair] at hr
      obtain rfl := (Except.ok.inj hr).symm
      refine ⟨hmax, fun s => ?_⟩
      by_cases hc : (p.totalPoints : ℚ) * cfg.secondaryAnimalThreshold ≤ (s1.totalPoints : ℚ)
      · simp only [if_pos hc]
        constructor
        · intro h1
          obtain rfl := Option.some.inj h1
          exact ⟨rfl, hc⟩
        · rintro ⟨h1, -⟩
          obtain rfl := Option.some.inj h1
          rfl
      · simp only [if_neg hc]
        constructor
        · intro h1
          cases h1
        · rintro ⟨h1, h2⟩
          obtain rfl := Option.some.inj h1
          exact absurd h2 hc

/-- Witness for C2 at the spec's scenario 2 with the default
configuration: fox 10 primary, wolf 8 surfaced as secondary. -/
theorem claim_C2_witness :
    (∀ sc ∈ [(⟨"fox", 10, [], 1/2⟩ : SpiritAnimalScore), ⟨"wolf", 8, [], 1/2⟩],
        sc.totalPoints ≤
          (⟨⟨"fox", 10, [], 1/2⟩, some ⟨"wolf", 8, [], 1/2⟩, Confidence.low, 8, 7⟩ :
            QuizResult).primary.totalPoints) ∧
      ∀ s, (⟨⟨"fox", 10, [], 1/2⟩, some ⟨"wolf", 8, [], 1/2⟩, Confidence.low, 8, 7⟩ :
            QuizResult).secondary = some s ↔
        ([(⟨"fox", 10, [], 1/2⟩ : SpiritAnimalScore), ⟨"wolf", 8, [], 1/2⟩] :
            List SpiritAnimalScore).tail.head? = some s ∧
          ((10 : ℤ) : ℚ) * DEFAULT_CONFIG.secondaryAnimalThreshold ≤ (s.totalPoints : ℚ) :=
  claim_C2 DEFAULT_CONFIG scenarioTwo
    [⟨"fox", 10, [], 1/2⟩, ⟨"wolf", 8, [], 1/2⟩]
    ⟨⟨"fox", 10, [], 1/2⟩, some ⟨"wolf", 8, [], 1/2⟩, Confidence.low, 8, 7⟩
    (by decide) (by decide)

/-- C5: a response whose marker is skip or unknown contributes nothing to
any archetype total, regardless of its points mapping, and is not counted
among the answered responses that feed the damping factor. -/
theorem claim_C5 (rs1 rs2 : List QuestionResponse) (r : QuestionResponse)
    (h : r.selectedOption = "skip" ∨ r.selectedOption = "unknown") :
    animalScores (rs1 ++ r :: rs2) = animalScores (rs1 ++ rs2) ∧
      answeredQuestions (rs1 ++ r :: rs2) = answeredQuestions (rs1 ++ rs2) ∧
      aggregate (rs1 ++ r :: rs2) = aggregate (rs1 ++ rs2) := by
  have hA : isAnswered r = false := by
    rcases h with h | h <;> simp [isAnswered, h]
  have h1 : animalScores (rs1 ++ r :: rs2) = animalScores (rs1 ++ rs2) := by
    rw [animalScores, animalScores, List.foldl_append, List.foldl_append, List.foldl_cons]
    rw [show accumResponse (rs1.foldl accumResponse []) r = rs1.foldl accumResponse [] by
      simp [accumResponse, hA]]
  have h2 : answeredQuestions (rs1 ++ r :: rs2) = answeredQuestions (rs1 ++ rs2) := by
    rw [answeredQuestions, answeredQuestions, List.filter_append, List.filter_append,
      List.filter_cons, hA]
    simp
  refine ⟨h1, h2, ?_⟩
  rw [aggregate, aggregate, h1, confidenceModifier, confidenceModifier, h2]

/-- Witness for C5: a skipped response with a non-empty points mapping
(the spec's suggested probe) has no effect. -/
theorem claim_C5_witness :
    animalScores ([] ++ skipProbe :: rsShort) = animalScores ([] ++ rsShort) ∧
      answeredQuestions ([] ++ skipProbe :: rsShort) = answeredQuestions ([] ++ rsShort) ∧
      aggregate ([] ++ skipProbe :: rsShort) = aggregate ([] ++ rsShort) :=
  claim_C5 [] rsShort skipProbe (Or.inl rfl)

/-- C6: every assembled result derives the answered and skipped counts
from the primary's confidence and a hard-coded total of 15, so the two
fields always sum to 15 whatever the input length was. -/
theorem calculateQuizResult_ok_iff (rs : List QuestionResponse) (cfg : ScoringConfig)
    (result : QuizResult) :
    calculateQuizResult rs cfg = Except.ok result ↔
      ∃ scores, calculateResult rs = Except.ok scores ∧
        getResultWithSecondary cfg scores = Except.ok result := by
  rw [calculateQuizResult]
  cases hs : calculateResult rs with
  | error e => simp
  | ok scores => simp

theorem claim_C6 (cfg : ScoringConfig) (rs : List QuestionResponse) (result : QuizResult)
    (h : calculateQuizResult rs cfg = Except.ok result) :
    result.totalQuestionsAnswered = mathRound (result.primary.confidence * 15) ∧
      result.skippedQuestions = 15 - mathRound (result.primary.confidence * 15) ∧
      result.totalQuestionsAnswered + result.skippedQuestions = 15 := by
  obtain ⟨scores, -, h⟩ := (calculateQuizResult_ok_iff rs cfg result).mp h
  cases scores with
  | nil => cases h
  | cons p rest =>
    cases rest with
    | nil =>
      rw [getResultWithSecondary_single] at h
      obtain rfl := (Except.ok.inj h).symm
      refine ⟨rfl, rfl, by ring⟩
    | cons s1 rest' =>
      rw [getResultWithSecondary_pair] at h
      obtain rfl := (Except.ok.inj h).symm
      refine ⟨rfl, rfl, by ring⟩

/-- Witness for C6 at the spec's scenario 2: confidence one half gives
totalQuestionsAnswered 8 and skippedQuestions 7. -/
theorem claim_C6_witness :
    (⟨⟨"fox", 10, [], 1/2⟩, some ⟨"wolf", 8, [], 1/2⟩, Confidence.low, 8, 7⟩ :
        QuizResult).totalQuestionsAnswered =
        mathRound ((⟨⟨"fox", 10, [], 1/2⟩, some ⟨"wolf", 8, [], 1/2⟩, Confidence.low, 8, 7⟩ :
          QuizResult).primary.confidence * 15) ∧
      (⟨⟨"fox", 10, [], 1/2⟩, some ⟨"wolf", 8, [], 1/2⟩, Confidence.low, 8, 7⟩ :
          QuizResult).skippedQuestions =
        15 - mathRound ((⟨⟨"fox", 10, [], 1/2⟩, some ⟨"wolf", 8, [], 1/2⟩, Confidence.low, 8, 7⟩ :
          QuizResult).primary.confidence * 15) ∧
      (⟨⟨"fox", 10, [], 1/2⟩, some ⟨"wolf", 8, [], 1/2⟩, Confidence.low, 8, 7⟩ :
          QuizResult).totalQuestionsAnswered +
        (⟨⟨"fox", 10, [], 1/2⟩, some ⟨"wolf", 8, [], 1/2⟩, Confidence.low, 8, 7⟩ :
          QuizResult).skippedQuestions = 15 :=
  claim_C6 DEFAULT_CONFIG scenarioTwo
    ⟨⟨"fox", 10, [], 1/2⟩, some ⟨"wolf", 8, [], 1/2⟩, Confidence.low, 8, 7⟩ (by decide)

/-- C7: the ranker fails, with the NoScoresError and nothing else, exactly
on the empty aggregated list, and for validated input the aggregation is
empty exactly when every response is skip/unknown or has an empty points
mapping. -/
theorem claim_C7 :
    (∀ (cfg : ScoringConfig) (scores : List SpiritAnimalScore) (e : CalcError),
        getResultWithSecondary cfg scores = Except.error e ↔
          e = CalcError.noScores ∧ scores = []) ∧
      ∀ rs : List QuestionResponse, validateTyped rs = Except.ok () →
        (calculateResult rs = Except.ok [] ↔
          ∀ r ∈ rs, isAnswered r = false ∨ r.points = []) := by
  constructor
  · intro cfg scores e
    cases scores with
    | nil =>
      constructor
      · intro h
        exact ⟨(Except.error.inj h).symm, rfl⟩
      · rintro ⟨rfl, -⟩
        rfl
    | cons p rest =>
      cases rest with
      | nil =>
        rw [getResultWithSecondary_single]
        simp
      | cons s1 rest' =>
        rw [getResultWithSecondary_pair]
        simp
  · intro rs hval
    rw [calculateResult_ok_iff]
    rw [← aggregate_eq_nil_iff]
    constructor
    · rintro ⟨-, hn⟩
      exact hn.symm
    · intro hn
      exact ⟨hval, hn.symm⟩

/-- Witness for C7: the empty score list yields exactly the NoScoresError,
and a single skipped response aggregates to the empty score list. -/
theorem claim_C7_witness :
    getResultWithSecondary DEFAULT_CONFIG [] = Except.error CalcError.noScores ∧
      calculateResult [skipProbe] = Except.ok [] :=
  ⟨(claim_C7.1 DEFAULT_CONFIG [] CalcError.noScores).mpr ⟨rfl, rfl⟩,
    (claim_C7.2 [skipProbe] (by decide)).mpr (by decide)⟩

/-- Counterexample to C8 as stated: on a validated list whose aggregation
puts wolf (raw 9, first seen) and fox (raw 10) at the same rounded damped
total 5, the engine's primary is wolf, whose raw total is not maximal. -/
theorem claim_C8_counterexample :
    validateTyped rsCounterC8 = Except.ok () ∧
      (calculateResult rsCounterC8).map (List.map (fun s => (s.animalName, s.totalPoints))) =
        Except.ok [("wolf", 5), ("fox", 5)] ∧
      confidenceModifier rsCounterC8 = 1 / 2 ∧
      rawTotal rsCounterC8 "wolf" = 9 ∧
      rawTotal rsCounterC8 "fox" = 10 ∧
      "fox" ∈ (animalScores rsCounterC8).map Prod.fst ∧
      ¬ rawTotal rsCounterC8 "fox" ≤ rawTotal rsCounterC8 "wolf" := by
  refine ⟨by decide, by decide, by decide, by decide, by decide, by decide, by decide⟩

/-- C8 amended: damping and rounding preserve the raw ranking up to
rounding ties — the primary's rounded damped raw total is maximal among
all aggregated archetypes' rounded damped raw totals (though its raw
total itself need not be maximal when distinct raw totals round to the
same damped value). -/
theorem claim_C8_amended (rs : List QuestionResponse) (p : SpiritAnimalScore)
    (rest : List SpiritAnimalScore)
    (hres : calculateResult rs = Except.ok (p :: rest)) :
    ∀ a ∈ (animalScores rs).map Prod.fst,
      mathRound (rawTotal rs a * confidenceModifier rs) ≤
        mathRound (rawTotal rs p.animalName * confidenceModifier rs) := by
  obtain ⟨hval, hagg⟩ := (calculateResult_ok_iff _ _).mp hres
  intro a ha
  obtain ⟨e, he, rfl⟩ := List.mem_map.mp ha
  have hxmem : toScore (confidenceModifier rs) e ∈ aggregate rs :=
    (mem_aggregate_iff rs _).mpr ⟨e, he, rfl⟩
  have hspec := mem_aggregate_spec rs _ hxmem
  have hp : p ∈ aggregate rs := by
    rw [← hagg]
    exact List.mem_cons_self _ _
  have hpspec := mem_aggregate_spec rs p hp
  have hle := head_totalPoints_max rs p rest hagg.symm _ hxmem
  rw [hspec.2.1, hpspec.2.1] at hle
  exact hle

/-- Witness for the amended C8 on the rounding-tie list: the aggregated
archetype fox's rounded damped total is at most the primary wolf's. -/
theorem claim_C8_witness :
    mathRound (rawTotal rsCounterC8 "fox" * confidenceModifier rsCounterC8) ≤
      mathRound (rawTotal rsCounterC8
        (SpiritAnimalScore.animalName ⟨"wolf", 5, [], 1 / 2⟩) *
          confidenceModifier rsCounterC8) :=
  claim_C8_amended rsCounterC8 ⟨"wolf", 5, [], 1 / 2⟩ [⟨"fox", 5, [], 1 / 2⟩] (by decide)
    "fox" (by decide)

/-- Counterexample to C9 as stated: adding an answered response while
holding contributions fixed raises the damping factor from one tenth to
one fifth, both below one, yet wolf's rounded totalPoints stays 0 — the
claimed strict increase of totalPoints fails. -/
theorem claim_C9_counterexample :
    answeredQuestions rsShort < answeredQuestions rsLonger ∧
      rawTotal rsShort "wolf" = rawTotal rsLonger "wolf" ∧
      rawTotal rsShort "wolf" ≠ 0 ∧
      confidenceModifier rsShort < confidenceModifier rsLonger ∧
      confidenceModifier rsLonger < 1 ∧
      aggregate rsShort = [⟨"wolf", 0, [], 1 / 10⟩] ∧
      aggregate rsLonger = [⟨"wolf", 0, [], 1 / 5⟩] ∧
      ¬ mathRound (rawTotal rsShort "wolf" * confidenceModifier rsShort) <
          mathRound (rawTotal rsLonger "wolf" * confidenceModifier rsLonger) := by
  refine ⟨by decide, by decide, by decide, by decide, by decide, by decide, by decide, by decide⟩

/-- C9 amended: more answered responses never decrease the damping
factor; while the factor is below 1 the increase is strict and every
nonzero archetype's pre-rounding damped total strictly increases
proportionally; the rounded totalPoints never decreases but need not
strictly increase. -/
theorem claim_C9_amended (rs rs' : List QuestionResponse) (a : String)
    (hval : validateTyped rs = Except.ok ())
    (hcount : answeredQuestions rs ≤ answeredQuestions rs')
    (hfix : rawTotal rs a = rawTotal rs' a) :
    confidenceModifier rs ≤ confidenceModifier rs' ∧
      (answeredQuestions rs < answeredQuestions rs' → answeredQuestions rs < 10 →
        confidenceModifier rs < confidenceModifier rs' ∧
          (rawTotal rs a ≠ 0 →
            rawTotal rs a * confidenceModifier rs <
              rawTotal rs' a * confidenceModifier rs')) ∧
      mathRound (rawTotal rs a * confidenceModifier rs) ≤
        mathRound (rawTotal rs' a * confidenceModifier rs') := by
  have hnn : 0 ≤ rawTotal rs a :=
    rawTotal_nonneg rs a (validateTyped_points_nonneg rs hval)
  have hmono := confidenceModifier_mono rs rs' hcount
  refine ⟨hmono, ?_, ?_⟩
  · intro hlt h10
    have hstrict := confidenceModifier_strict_mono rs rs' hlt h10
    refine ⟨hstrict, ?_⟩
    intro hne
    have hpos : 0 < rawTotal rs a := lt_of_le_of_ne hnn (Ne.symm hne)
    rw [← hfix]
    exact mul_lt_mul_of_pos_left hstrict hpos
  · rw [← hfix]
    apply mathRound_mono
    exact mul_le_mul_of_nonneg_left hmono hnn

/-- Witness for the amended C9 on the one-response versus two-response
lists: factor one tenth versus one fifth, wolf's damped product strictly
increases, the rounded total does not decrease. -/
theorem claim_C9_witness :
    confidenceModifier rsShort ≤ confidenceModifier rsLonger ∧
      (answeredQuestions rsShort < answeredQuestions rsLonger →
        answeredQuestions rsShort < 10 →
        confidenceModifier rsShort < confidenceModifier rsLonger ∧
          (rawTotal rsShort "wolf" ≠ 0 →
            rawTotal rsShort "wolf" * confidenceModifier rsShort <
              rawTotal rsLonger "wolf" * confidenceModifier rsLonger)) ∧
      mathRound (rawTotal rsShort "wolf" * confidenceModifier rsShort) ≤
        mathRound (rawTotal rsLonger "wolf" * confidenceModifier rsLonger) :=
  claim_C9_amended rsShort rsLonger "wolf" (by decide) (by decide) (by decide)

/-- C10: for validated input with at least one answered response carrying
a non-empty points mapping, the pipeline returns a result and the
NoScoresError branch is unreachable. -/
theorem claim_C10 (cfg : ScoringConfig) (rs : List QuestionResponse)
    (hval : validateTyped rs = Except.ok ())
    (hex : ∃ r ∈ rs, isAnswered r = true ∧ r.points ≠ []) :
    ∃ result, calculateQuizResult rs cfg = Except.ok result := by
  have hagg : aggregate rs ≠ [] := by
    rw [Ne, aggregate_eq_nil_iff]
    intro hall
    obtain ⟨r, hr, hans, hpts⟩ := hex
    rcases hall r hr with hf | hf
    · rw [hans] at hf
      cases hf
    · exact hpts hf
  cases ha : aggregate rs with
  | nil => exact absurd ha hagg
  | cons p rest =>
    have hcr : calculateResult rs = Except.ok (p :: rest) :=
      (calculateResult_ok_iff rs (p :: rest)).mpr ⟨hval, ha.symm⟩
    cases rest with
    | nil =>
      exact ⟨_, (calculateQuizResult_ok_iff rs cfg _).mpr
        ⟨[p], hcr, getResultWithSecondary_single cfg p⟩⟩
    | cons s1 rest' =>
      exact ⟨_, (calculateQuizResult_ok_iff rs cfg _).mpr
        ⟨p :: s1 :: rest', hcr, getResultWithSecondary_pair cfg p s1 rest'⟩⟩

/-- Witness for C10: the spec's scenario 2 yields a result. -/
theorem claim_C10_witness :
    ∃ result, calculateQuizResult scenarioTwo DEFAULT_CONFIG = Except.ok result :=
  claim_C10 DEFAULT_CONFIG scenarioTwo (by decide)
    ⟨⟨"q1", "A", [("fox", 4), ("wolf", 3)]⟩, by decide, by decide, by decide⟩
